import Mathlib

/-!
# Shallow embedding of `app.py` (community-platform Flask application)

This file models, in Lean, the data model and the operations of the single
source file `src/app.py`: MongoDB documents become association lists of
`String × Val` pairs, each collection becomes a `List Doc`, and every route
handler that the claims touch becomes a pure Lean function that takes the
relevant request data (form fields, path parameters, the current time, the
session identity) and the current database state as explicit arguments.

String manipulation is translated character-by-character (`List Char`) so
that every definition is executable by kernel reduction.  Timestamps are
modelled as natural numbers (seconds); `datetime.utcnow()` becomes an
explicit `now : Nat` argument.
-/

/-- A BSON-ish value stored in a document: the Python/Mongo values that
`app.py` actually puts into documents (strings, booleans, integers /
timestamps, ObjectIds, lists of strings from the `requirements` split, and
`None`). ObjectIds are carried as their 24-character lowercase hex string. -/
inductive Val where
  | s (v : String)
  | b (v : Bool)
  | n (v : Nat)
  | oid (v : String)
  | list (vs : List String)
  | null
deriving DecidableEq

/-- A document / Python dict: an ordered association list (Python dicts keep
insertion order, and `app.py` relies on nothing more). -/
abbrev Doc := List (String × Val)

/-- `d[k]` lookup (first binding wins, as in a dict with unique keys). -/
def dictGet (d : Doc) (k : String) : Option Val :=
  match d with
  | [] => none
  | kv :: rest => if kv.1 = k then some kv.2 else dictGet rest k

/-- `d[k] = v`: replace the binding in place if the key exists, else append
(Python dict assignment keeps the position of an existing key). -/
def dictSet (d : Doc) (k : String) (v : Val) : Doc :=
  match d with
  | [] => [(k, v)]
  | kv :: rest => if kv.1 = k then (k, v) :: rest else kv :: dictSet rest k v

/-- `del d[k]` (no-op when the key is absent, matching the guarded
`if k in data: del data[k]` in the source). -/
def dictRemove (d : Doc) (k : String) : Doc :=
  d.filter (fun kv => !(kv.1 = k : Bool))

/-- `list(d.keys())` snapshot. -/
def dictKeys (d : Doc) : List String := d.map (fun kv => kv.1)

/-- `d.update`-style bulk assignment; also models MongoDB `$set`. -/
def dictSetAll (d : Doc) (kvs : Doc) : Doc :=
  kvs.foldl (fun acc kv => dictSet acc kv.1 kv.2) d

/-- `d.get(k, dflt)`. -/
def getValD (d : Doc) (k : String) (dflt : Val) : Val :=
  (dictGet d k).getD dflt

/-- `d.get(k)` — missing keys give Python `None`. -/
def getVal (d : Doc) (k : String) : Val := getValD d k .null

/-- Python truthiness for the values that occur in documents. -/
def pyTruthy : Val → Bool
  | .s v => !(v = "" : Bool)
  | .b v => v
  | .n v => !(v = 0 : Bool)
  | .oid _ => true
  | .list vs => !vs.isEmpty
  | .null => false

/-- Python `a or b` (short-circuit on truthiness). -/
def valOr (a b : Val) : Val := if pyTruthy a then a else b

/-- Python slicing `s[:n]` on a string value (the only slicing in the file). -/
def valTake (v : Val) (len : Nat) : Val :=
  match v with
  | .s v => .s (String.mk (v.toList.take len))
  | v => v

/-- Lowercase a string (character map, as `str.lower`). -/
def strLower (s : String) : String := String.mk (s.toList.map Char.toLower)

/-- `str.replace(c, r)` for a single-character pattern, done char-by-char. -/
def replaceChar (c : Char) (r : String) (s : String) : String :=
  String.join (s.toList.map (fun a => if a = c then r else String.mk [a]))

/-- `sanitize_input`: `text.replace('<', '&lt;').replace('>', '&gt;')`. -/
def sanitize_input (s : String) : String :=
  replaceChar '>' "&gt;" (replaceChar '<' "&lt;" s)

/-- Python `str.strip()` (trim leading/trailing whitespace). -/
def pyStrip (s : String) : String :=
  String.mk (((s.toList.dropWhile Char.isWhitespace).reverse.dropWhile
      Char.isWhitespace).reverse)

/-- `set_default_value`: blank / empty strings become the sentinel `"N/A"`
(`value.strip() == ''` is exactly "every character is whitespace"). -/
def set_default_value (s : String) : String :=
  if s.toList.all Char.isWhitespace then "N/A" else s

/-- The sanitization applied to every string field on create/update:
`set_default_value(sanitize_input(v))`. -/
def sanitizeStr (s : String) : String := set_default_value (sanitize_input s)

/-- `bson.ObjectId.is_valid` on a string: 24 hexadecimal characters. -/
def objectIdIsValid (sid : String) : Bool :=
  (sid.toList.length = 24 : Bool) &&
    sid.toList.all (fun c => c.isDigit ||
      (('a' ≤ c && c ≤ 'f') || ('A' ≤ c && c ≤ 'F')))

/-- `ObjectId(sid)` as a value: ObjectId equality is byte-wise, so the hex
string is normalised to lowercase. -/
def mkOid (sid : String) : Val := .oid (strLower sid)

/-- `ITEMS_PER_PAGE = 30`. -/
def ITEMS_PER_PAGE : Nat := 30

/-- Singular/plural suffix used by `time_ago`'s f-strings. -/
def plural (n : Nat) : String := if n > 1 then "s" else ""

/-- `time_ago`, as a function of the elapsed duration in seconds
(`(now - posted_at).total_seconds()`, integer-truncated unit counts). -/
def time_ago (seconds : Nat) : String :=
  if seconds < 60 then "Just now"
  else if seconds < 3600 then
    toString (seconds / 60) ++ " minute" ++ plural (seconds / 60) ++ " ago"
  else if seconds < 86400 then
    toString (seconds / 3600) ++ " hour" ++ plural (seconds / 3600) ++ " ago"
  else if seconds < 604800 then
    toString (seconds / 86400) ++ " day" ++ plural (seconds / 86400) ++ " ago"
  else if seconds < 2592000 then
    toString (seconds / 604800) ++ " week" ++ plural (seconds / 604800) ++ " ago"
  else
    toString (seconds / 2592000) ++ " month" ++ plural (seconds / 2592000) ++ " ago"

/-- The threshold bucket `time_ago` lands in (0 = "Just now" … 5 = months). -/
def timeAgoBucket (seconds : Nat) : Nat :=
  if seconds < 60 then 0
  else if seconds < 3600 then 1
  else if seconds < 86400 then 2
  else if seconds < 604800 then 3
  else if seconds < 2592000 then 4
  else 5

/-- The integer-truncated unit count shown by `time_ago` (0 for "Just now"). -/
def timeAgoCount (seconds : Nat) : Nat :=
  if seconds < 60 then 0
  else if seconds < 3600 then seconds / 60
  else if seconds < 86400 then seconds / 3600
  else if seconds < 604800 then seconds / 86400
  else if seconds < 2592000 then seconds / 604800
  else seconds / 2592000

/-- Unit name of each nonzero bucket. -/
def bucketUnit : Nat → String
  | 1 => "minute"
  | 2 => "hour"
  | 3 => "day"
  | 4 => "week"
  | _ => "month"

/-- Pagination metadata returned by `get_pagination_data`. -/
structure PaginationData where
  page : Nat
  total_pages : Nat
  has_prev : Bool
  has_next : Bool
  prev_page : Option Nat
  next_page : Option Nat
deriving DecidableEq

/-- `get_pagination_data(page, total_items)`. -/
def get_pagination_data (page total_items : Nat) : PaginationData :=
  let total_pages := (total_items + ITEMS_PER_PAGE - 1) / ITEMS_PER_PAGE
  let has_prev := decide (page > 1)
  let has_next := decide (page < total_pages)
  { page := page
    total_pages := total_pages
    has_prev := has_prev
    has_next := has_next
    prev_page := if has_prev then some (page - 1) else none
    next_page := if has_next then some (page + 1) else none }

/-- The seven content collections of the application database. -/
structure ContentDB where
  jobs : List Doc
  workshops : List Doc
  courses : List Doc
  hackathons : List Doc
  roadmaps : List Doc
  websites : List Doc
  ads : List Doc
deriving DecidableEq

/-- The full `collection_map` used by the admin routes. -/
def collOf (db : ContentDB) : String → Option (List Doc)
  | "jobs" => some db.jobs
  | "workshops" => some db.workshops
  | "courses" => some db.courses
  | "hackathons" => some db.hackathons
  | "roadmaps" => some db.roadmaps
  | "websites" => some db.websites
  | "ads" => some db.ads
  | _ => none

/-- Write a collection back under its `collection_map` name. -/
def setColl (db : ContentDB) (ct : String) (coll : List Doc) : ContentDB :=
  if ct = "jobs" then { db with jobs := coll }
  else if ct = "workshops" then { db with workshops := coll }
  else if ct = "courses" then { db with courses := coll }
  else if ct = "hackathons" then { db with hackathons := coll }
  else if ct = "roadmaps" then { db with roadmaps := coll }
  else if ct = "websites" then { db with websites := coll }
  else if ct = "ads" then { db with ads := coll }
  else db

/-- The keys of the admin `collection_map`. -/
def validContentTypes : List String :=
  ["jobs", "workshops", "courses", "hackathons", "roadmaps", "websites", "ads"]

/-- The four-collection `collection_map` of `get_cached_content` /
`filter_content` (public paginated listings). -/
def publicCollOf (db : ContentDB) : String → Option (List Doc)
  | "jobs" => some db.jobs
  | "workshops" => some db.workshops
  | "courses" => some db.courses
  | "hackathons" => some db.hackathons
  | _ => none

/-- The sort key of `.sort('posted_at', DESCENDING)`. -/
def postKey (d : Doc) : Nat :=
  match dictGet d "posted_at" with
  | some (.n t) => t
  | _ => 0

/-- "`a` may come before `b`" for the descending posted-at sort. -/
def byPostedDesc (a b : Doc) : Bool := postKey b ≤ postKey a

/-- Insert into an already-sorted list (helper for `sortBy`). -/
def insertSorted (le : Doc → Doc → Bool) (a : Doc) : List Doc → List Doc
  | [] => [a]
  | b :: bs => if le a b then a :: b :: bs else b :: insertSorted le a bs

/-- The MongoDB `.sort(...)` step: any comparison sort; modelled as a
structurally-recursive insertion sort on the given order. -/
def sortBy (le : Doc → Doc → Bool) : List Doc → List Doc
  | [] => []
  | a :: as => insertSorted le a (sortBy le as)

/-- The projection `{'admin_id': 0}` (exclude one field). -/
def exclAdminId (d : Doc) : Doc := dictRemove d "admin_id"

/-- An inclusion projection `{k₁: 1, …}` (always keeps `_id`). -/
def projInclude (keys : List String) (d : Doc) : Doc :=
  d.filter (fun kv => kv.1 = "_id" || keys.contains kv.1)

/-- `get_cached_content(content_type, page)`: projected, sorted by posting
time descending, skip `(page-1)*ITEMS_PER_PAGE`, limit `ITEMS_PER_PAGE`;
the returned total is the collection's document count. -/
def get_cached_content (db : ContentDB) (ct : String) (page : Nat) :
    List Doc × Nat :=
  match publicCollOf db ct with
  | none => ([], 0)
  | some coll =>
    let skip := (page - 1) * ITEMS_PER_PAGE
    (((sortBy byPostedDesc (coll.map exclAdminId)).drop skip).take ITEMS_PER_PAGE,
      coll.length)

/-- The per-string-field normalisation loop of `admin_add_content`
(`sanitize_input` then `set_default_value` on every string value). -/
def sanitizeStrings (d : Doc) : Doc :=
  d.map (fun kv =>
    match kv.2 with
    | .s v => (kv.1, .s (sanitizeStr v))
    | _ => kv)

/-- Python `s.split(',')` on a character list. -/
def splitComma (l : List Char) (acc : List Char) : List (List Char) :=
  match l with
  | [] => [acc.reverse]
  | c :: cs => if c = ',' then acc.reverse :: splitComma cs [] else splitComma cs (c :: acc)

/-- `[r.strip() for r in v.split(',') if r.strip()]`. -/
def splitRequirementsStr (v : String) : List String :=
  ((splitComma v.toList []).map (fun cs => String.mk (stripChars cs))).filter
    (fun r => !(r = "" : Bool))
where
  /-- `str.strip()` on a character list. -/
  stripChars (cs : List Char) : List Char :=
    ((cs.dropWhile Char.isWhitespace).reverse.dropWhile Char.isWhitespace).reverse

/-- The `requirements` comma-split applied by both create and update. -/
def splitRequirements (d : Doc) : Doc :=
  match dictGet d "requirements" with
  | some (.s v) =>
    if v = "N/A" then d
    else dictSet d "requirements" (.list (splitRequirementsStr v))
  | _ => d

/-- The guarded boolean normalisation of the create path
(`if k in data: data[k] = data[k] == 'on'` — absent keys stay absent). -/
def createNormBool (d : Doc) (k : String) : Doc :=
  match dictGet d k with
  | some v => dictSet d k (.b (v == Val.s "on"))
  | none => d

/-- The content document built by `admin_add_content` before `insert_one`:
optional image (a failed upload stores Python `None`), sanitized strings,
`posted_at`, `admin_id`, the `'on'` normalisation of `certification` and
`active`, and the `requirements` split.  `upload = some r` means a file with
a filename was posted and the Cloudinary call returned `r` (`none` = upload
failed). -/
def createData (form : Doc) (upload : Option (Option String)) (now : Nat)
    (adminId : String) : Doc :=
  let data := form
  let data := match upload with
    | some (some url) => dictSet data "image" (.s url)
    | some none => dictSet data "image" .null
    | none => data
  let data := sanitizeStrings data
  let data := dictSet data "posted_at" (.n now)
  let data := dictSet data "admin_id" (.s adminId)
  let data := createNormBool data "certification"
  let data := createNormBool data "active"
  splitRequirements data

/-- The `ad_data` document inserted by `admin_add_content` when
`promote_as_ad` is on.  Note the Python precedence: the `[:100]` slice binds
only to the `data.get('description', 'N/A')` branch of the `or`. -/
def mkAdCreate (data : Doc) (ct : String) (newId : String) (now : Nat)
    (adminId : String) : Doc :=
  [("title", valOr (getVal data "company_name")
      (valOr (getVal data "name") (getValD data "title" (.s "N/A")))),
   ("description", valOr (getVal data "role")
      (valTake (getValD data "description" (.s "N/A")) 100)),
   ("image", getValD data "image" (.s "")),
   ("link", getValD data "official_link" (.s "#")),
   ("content_type", .s ct),
   ("content_reference", mkOid newId),
   ("active", .b true),
   ("clicks", .n 0),
   ("impressions", .n 0),
   ("posted_at", .n now),
   ("admin_id", .s adminId)]

/-- Result of `admin_add_content`: the inserted content document and the
list of ad documents inserted alongside it (empty or a singleton). -/
structure CreateOutcome where
  content : Doc
  newAds : List Doc
deriving DecidableEq

/-- `admin_add_content(content_type)`: `none` models the 400
"Invalid content type" response (nothing inserted). -/
def admin_add_content (ct : String) (form : Doc) (upload : Option (Option String))
    (now : Nat) (adminId : String) (newId : String) : Option CreateOutcome :=
  if validContentTypes.contains ct then
    let data := createData form upload now adminId
    let promote := getVal form "promote_as_ad" == Val.s "on"
    some { content := data
           newAds := if promote then [mkAdCreate data ct newId now adminId] else [] }
  else none

/-- One pass of the (mis-indented) boolean-normalisation block inside the
edit route's sanitisation loop: re-derives `certification`, `active` and
`is_project` from their *current* values every time a string field is
processed. -/
def normBoolKey (d : Doc) (k : String) : Doc :=
  match dictGet d k with
  | some v => dictSet d k (.b (v == Val.s "on"))
  | none => dictSet d k (.b false)

/-- The three normalisations, in source order. -/
def normBools (d : Doc) : Doc :=
  normBoolKey (normBoolKey (normBoolKey d "certification") "active") "is_project"

/-- `for key in list(data.keys()):` of `admin_edit_content`: the snapshot of
keys is iterated; for each key whose *current* value is a string it is
sanitised, and then the boolean-normalisation block runs (it is nested
inside the `isinstance` branch in the source). -/
def editSanitizeLoop : List String → Doc → Doc
  | [], d => d
  | k :: ks, d =>
    match dictGet d k with
    | some (.s v) =>
      editSanitizeLoop ks (normBools (dictSet d k (.s (sanitizeStr v))))
    | _ => editSanitizeLoop ks d

/-- The `$set` payload built by the POST branch of `admin_edit_content`:
optional successfully-uploaded image (a failed upload sets nothing here),
`promote_as_ad` removed, the sanitisation loop, the `requirements` split,
and `updated_at`. -/
def admin_edit_data (form : Doc) (upload : Option (Option String)) (now : Nat) :
    Doc :=
  let data := form
  let data := match upload with
    | some (some url) => dictSet data "image" (.s url)
    | _ => data
  let data := dictRemove data "promote_as_ad"
  let data := editSanitizeLoop (dictKeys data) data
  let data := splitRequirements data
  dictSet data "updated_at" (.n now)

/-- The `ad_data` built by the edit route (different fallback chain and
truncation than on create: the `[:150]` slice applies to the whole `or`). -/
def mkAdEdit (data : Doc) (ct : String) (id : String) (now : Nat)
    (adminId : String) : Doc :=
  [("title", valOr (getVal data "company_name")
      (valOr (getVal data "name") (.s "Opportunity"))),
   ("description", valTake (valOr (getVal data "role")
      (getValD data "description" (.s ""))) 150),
   ("image", getValD data "image" (.s "")),
   ("link", getValD data "official_link" (.s "#")),
   ("content_type", .s ct),
   ("content_reference", mkOid id),
   ("active", .b true),
   ("updated_at", .n now),
   ("admin_id", .s adminId)]

/-- `{'content_reference': ObjectId(id)}` as a document predicate. -/
def refMatches (id : String) (a : Doc) : Bool :=
  dictGet a "content_reference" == some (mkOid id)

/-- `{'_id': ObjectId(id)}` as a document predicate. -/
def idMatches (id : String) (d : Doc) : Bool :=
  dictGet d "_id" == some (mkOid id)

/-- The content types for which the edit route maintains the linked ad. -/
def promotableTypes : List String := ["jobs", "workshops", "courses", "hackathons"]

/-- `update_one`: update the first document matching the predicate (the
edit route looks the ad up by `content_reference` and then updates it by its
unique `_id`, which is the same document). -/
def updateFirstWhere (p : Doc → Bool) (f : Doc → Doc) : List Doc → List Doc
  | [] => []
  | a :: as => if p a then f a :: as else a :: updateFirstWhere p f as

/-- `delete_one`: remove the first document matching the predicate. -/
def deleteFirstWhere (p : Doc → Bool) : List Doc → List Doc
  | [] => []
  | a :: as => if p a then as else a :: deleteFirstWhere p as

/-- The ad-linking effect of the POST branch of `admin_edit_content` on the
ads collection: only for jobs/workshops/courses/hackathons; with the
promote flag on it upserts (preserving counters on update, zeroing them on
insert), with the flag off it deletes every ad referencing the content id. -/
def admin_edit_ads (ads : List Doc) (ct : String) (id : String) (data : Doc)
    (promote : Bool) (now : Nat) (adminId : String) : List Doc :=
  if promotableTypes.contains ct then
    if promote then
      let ad_data := mkAdEdit data ct id now adminId
      if ads.any (refMatches id) then
        updateFirstWhere (refMatches id) (fun a => dictSetAll a ad_data) ads
      else
        ads ++ [dictSet (dictSet (dictSet ad_data "clicks" (.n 0))
          "impressions" (.n 0)) "posted_at" (.n now)]
    else
      ads.filter (fun a => !refMatches id a)
  else ads

/-- `admin_delete_content(content_type, id)`: delete the content document,
then cascade-delete every ad whose `content_reference` is the id.  `none`
models the 400 "Invalid content type" response (nothing deleted). -/
def admin_delete_content (db : ContentDB) (ct : String) (id : String) :
    Option ContentDB :=
  match collOf db ct with
  | none => none
  | some coll =>
    let db1 := setColl db ct (deleteFirstWhere (idMatches id) coll)
    some { db1 with ads := db1.ads.filter (fun a => !refMatches id a) }

/-- One row of the `ad_clicks` collection (the click-event log). -/
structure ClickEvent where
  ad_id : String
  clicked_at : Nat
  user_id : Option String
  ip_address : String
deriving DecidableEq

/-- Ads collection plus the append-only click log. -/
structure AdsState where
  ads : List Doc
  ad_clicks : List ClickEvent
deriving DecidableEq

/-- Outcome of the tracking endpoints (200 / 400 Invalid ad ID /
404 Ad not found). -/
inductive TrackResult where
  | ok
  | invalidId
  | notFound
deriving DecidableEq

/-- MongoDB `$inc` on a counter field (a missing field is created holding
the increment). -/
def incVal : Option Val → Val
  | some (.n k) => .n (k + 1)
  | _ => .n 1

/-- `update_one({'_id': oid}, {'$inc': {'clicks': 1}})`: increment the
counter of the first matching ad; `none` when `matched_count == 0`. -/
def incFirstClicks (id : String) : List Doc → Option (List Doc)
  | [] => none
  | a :: as =>
    if idMatches id a then
      some (dictSet a "clicks" (incVal (dictGet a "clicks")) :: as)
    else
      (incFirstClicks id as).map (fun l => a :: l)

/-- `ad_click(ad_id)`: validate the id format, increment the click counter
of the matching ad, and append one click-event record. -/
def ad_click (st : AdsState) (ad_id : String) (now : Nat)
    (user : Option String) (ip : String) : AdsState × TrackResult :=
  if !objectIdIsValid ad_id then (st, .invalidId)
  else
    match incFirstClicks ad_id st.ads with
    | none => (st, .notFound)
    | some ads1 =>
      ({ ads := ads1
         ad_clicks := st.ad_clicks ++ [{ ad_id := strLower ad_id, clicked_at := now,
                                         user_id := user, ip_address := ip }] },
       .ok)

/-- `str(item['_id'])` (an ObjectId value becomes its hex string). -/
def idToStr (v : Option Val) : Val :=
  match v with
  | some (.oid h) => .s h
  | some v => v
  | none => .null

/-- `/roadmaps`: every roadmap, with `admin_id` projected away. -/
def roadmaps_page (db : ContentDB) : List Doc := db.roadmaps.map exclAdminId

/-- `/websites`: every website, with `admin_id` projected away. -/
def websites_page (db : ContentDB) : List Doc := db.websites.map exclAdminId

/-- `/our-projects`: websites with `is_project: True`, `admin_id` away. -/
def our_projects_page (db : ContentDB) : List Doc :=
  (db.websites.filter (fun d => dictGet d "is_project" == some (Val.b true))).map
    exclAdminId

/-- The singular-keyed `collection_map` of the detail / apply routes. -/
def detailCollOf (db : ContentDB) : String → Option (List Doc)
  | "job" => some db.jobs
  | "workshop" => some db.workshops
  | "course" => some db.courses
  | "hackathon" => some db.hackathons
  | _ => none

/-- `detail_page(content_type, id)`: the item (projection `{'admin_id': 0}`,
plus the `time_ago` decoration) and up to 3 related items fetched with
inclusion projections.  `none` models the redirect taken for an unknown
content type or a missing document. -/
def detail_page (db : ContentDB) (ct : String) (id : String) (now : Nat) :
    Option (Doc × List Doc) :=
  match detailCollOf db ct with
  | none => none
  | some coll =>
    match (coll.map exclAdminId).find? (idMatches id) with
    | none => none
    | some item =>
      let item := dictSet item "time_ago" (.s (time_ago (now - postKey item)))
      let related :=
        if ct = "job" then
          ((coll.filter (fun d => dictGet d "job_type" == dictGet item "job_type"
              && !idMatches id d)).map
            (projInclude ["company_name", "role", "location", "posted_at", "image"])).take 3
        else
          ((coll.filter (fun d => !idMatches id d)).map
            (projInclude ["name", "organizer", "posted_at", "image"])).take 3
      some (item, related)

/-- Case-insensitive character-list containment (`{'$regex': pat,
'$options': 'i'}` for a pattern without metacharacters). -/
def charsStartWith : List Char → List Char → Bool
  | [], _ => true
  | _ :: _, [] => false
  | a :: as, b :: bs => a == b && charsStartWith as bs

/-- Substring occurrence on character lists. -/
def charsInfix (needle : List Char) : List Char → Bool
  | [] => needle.isEmpty
  | c :: cs => charsStartWith needle (c :: cs) || charsInfix needle cs

/-- Case-insensitive substring match of `pat` inside `v`. -/
def containsCI (v pat : String) : Bool :=
  charsInfix (strLower pat).toList (strLower v).toList

/-- A regex/equality condition against one (possibly missing) field. -/
def fieldRegexCI (d : Doc) (k : String) (pat : String) : Bool :=
  match dictGet d k with
  | some (.s v) => containsCI v pat
  | _ => false

/-- Query parameters accepted by `/api/filter/<content_type>` (a `none`
models an absent or empty parameter — both are skipped by the
`if request.args.get(...)` truthiness tests). -/
structure FilterParams where
  location : Option String
  price : Option String
  date : Option String
  job_type : Option String
  experience : Option String

/-- The conjunctive Mongo query built by `filter_content`. -/
def matchesFilterQuery (now : Nat) (p : FilterParams) (d : Doc) : Bool :=
  (match p.location with
   | some loc => fieldRegexCI d "location" loc
   | none => true) &&
  (match p.price with
   | some pr => dictGet d "price" == some (Val.s pr)
   | none => true) &&
  (match p.date with
   | some df =>
     if df = "24h" then
       match dictGet d "posted_at" with
       | some (.n t) => decide (now - 86400 ≤ t)
       | _ => false
     else if df = "week" then
       match dictGet d "posted_at" with
       | some (.n t) => decide (now - 604800 ≤ t)
       | _ => false
     else if df = "month" then
       match dictGet d "posted_at" with
       | some (.n t) => decide (now - 2592000 ≤ t)
       | _ => false
     else true
   | none => true) &&
  (match p.job_type with
   | some jt => dictGet d "job_type" == some (Val.s jt)
   | none => true) &&
  (match p.experience with
   | some ex => dictGet d "required_experience" == some (Val.s ex)
   | none => true)

/-- `/api/filter/<content_type>`: filter, project away `admin_id`, sort by
posting time descending, paginate, then decorate each result with a string
`_id` and a `time_ago`.  `none` models the 400 error. -/
def filter_content (db : ContentDB) (ct : String) (p : FilterParams)
    (page : Nat) (now : Nat) : Option (List Doc) :=
  match publicCollOf db ct with
  | none => none
  | some coll =>
    let results :=
      (((sortBy byPostedDesc ((coll.filter (matchesFilterQuery now p)).map
          exclAdminId)).drop ((page - 1) * ITEMS_PER_PAGE)).take ITEMS_PER_PAGE)
    some (results.map (fun d =>
      dictSet (dictSet d "_id" (idToStr (dictGet d "_id")))
        "time_ago" (.s (time_ago (now - postKey d)))))

/-- Per-collection oracles for `/api/search`: whether the text index is
usable (the `try`/`except` switch), which documents the `$text` query
matches, and their relevance scores — all three are internal to MongoDB and
so are parameters of the model. -/
structure SearchOracle where
  textOk : Bool
  textMatch : Doc → Bool
  score : Doc → Nat

/-- Sort key for `('score', {'$meta': 'textScore'})` (descending). -/
def byScoreDesc (a b : Doc) : Bool :=
  (match dictGet b "score" with | some (.n v) => v | _ => 0) ≤
    (match dictGet a "score" with | some (.n v) => v | _ => 0)

/-- One collection's contribution to `/api/search`: the text-index branch
(filter, project `admin_id` away and add the score, sort by score, limit 5)
or the regex fallback (filter on the given fields, project, limit 5);
each result then gets a string `_id` and the `type` tag. -/
def searchColl (o : SearchOracle) (coll : List Doc) (q : String)
    (regexFields : List String) (typeName : String) : List Doc :=
  let hits :=
    if o.textOk then
      (sortBy byScoreDesc ((coll.filter o.textMatch).map
        (fun d => dictSet (exclAdminId d) "score" (.n (o.score d))))).take 5
    else
      ((coll.filter (fun d => regexFields.any (fun k => fieldRegexCI d k q))).map
        exclAdminId).take 5
  hits.map (fun d =>
    dictSet (dictSet d "_id" (idToStr (dictGet d "_id"))) "type" (.s typeName))

/-- `/api/search`: empty (stripped) query short-circuits to `[]`; otherwise
the four collections are searched independently and concatenated. -/
def search (db : ContentDB) (q : String)
    (oJ oW oC oH : SearchOracle) : List Doc :=
  if pyStrip q = "" then []
  else
    searchColl oJ db.jobs q ["company_name", "role", "job_type"] "job" ++
    searchColl oW db.workshops q ["name", "organizer"] "workshop" ++
    searchColl oC db.courses q ["name", "instructor"] "course" ++
    searchColl oH db.hackathons q ["name", "organizer"] "hackathon"

/-- `/api/get-ads`: `$match` on active, `$sample` (the random sample is an
oracle), `$project` onto the public field set, then the per-ad default
filling and `_id`/`content_reference` stringification. -/
def get_ads (db : ContentDB) (sample : List Doc → List Doc) : List Doc :=
  let active := db.ads.filter (fun a => dictGet a "active" == some (Val.b true))
  (sample active).map (fun a0 =>
    let a := projInclude ["title", "description", "image", "link", "clicks"] a0
    let a := dictSet a "_id" (idToStr (dictGet a "_id"))
    let a := if (dictGet a "content_reference").isSome then
        dictSet a "content_reference" (idToStr (dictGet a "content_reference"))
      else a
    let a := dictSet a "title" (getValD a "title" (.s "Opportunity"))
    let a := dictSet a "description" (getValD a "description" (.s ""))
    let a := dictSet a "image" (getValD a "image" (.s ""))
    dictSet a "link" (getValD a "link" (.s "#")))

/-! ## Helper lemmas about the dictionary and sorting primitives -/

theorem dictGet_dictSet_self (d : Doc) (k : String) (v : Val) :
    dictGet (dictSet d k v) k = some v := by
  induction d with
  | nil => simp [dictSet, dictGet]
  | cons kv rest ih =>
    by_cases h : kv.1 = k
    · simp [dictSet, dictGet, h]
    · simp [dictSet, dictGet, h, ih]

theorem dictGet_dictSet_ne (d : Doc) (k : String) (v : Val) (k2 : String)
    (h : k2 ≠ k) : dictGet (dictSet d k v) k2 = dictGet d k2 := by
  have hne : ¬ (k = k2) := fun hh => h hh.symm
  induction d with
  | nil => simp [dictSet, dictGet, hne]
  | cons kv rest ih =>
    by_cases hk : kv.1 = k
    · have hne2 : ¬ (kv.1 = k2) := by rw [hk]; exact hne
      simp [dictSet, dictGet, hk, hne, hne2]
    · by_cases hk2 : kv.1 = k2
      · simp only [dictSet, dictGet, if_neg hk, if_pos hk2]
      · simp [dictSet, dictGet, hk, hk2, ih]

theorem dictGet_dictSetAll_notMem (kvs : Doc) (d : Doc) (k : String)
    (h : ∀ kv ∈ kvs, kv.1 ≠ k) :
    dictGet (dictSetAll d kvs) k = dictGet d k := by
  induction kvs generalizing d with
  | nil => simp [dictSetAll]
  | cons kv rest ih =>
    have hne : kv.1 ≠ k := h kv (List.mem_cons_self _ _)
    have hrest : ∀ kv2 ∈ rest, kv2.1 ≠ k := fun kv2 hm => h kv2 (List.mem_cons_of_mem _ hm)
    calc dictGet (dictSetAll d (kv :: rest)) k
        = dictGet (dictSetAll (dictSet d kv.1 kv.2) rest) k := rfl
      _ = dictGet (dictSet d kv.1 kv.2) k := ih _ hrest
      _ = dictGet d k := dictGet_dictSet_ne _ _ _ _ (fun hh => hne hh.symm)

theorem dictGet_filter_eq_none (d : Doc) (p : String × Val → Bool) (k : String)
    (h : ∀ v, p (k, v) = false) : dictGet (d.filter p) k = none := by
  induction d with
  | nil => simp [dictGet]
  | cons kv rest ih =>
    by_cases hp : p kv
    · have hk : ¬ (kv.1 = k) := by
        intro hh
        have hkv : kv = (k, kv.2) := by cases kv; simp_all
        rw [hkv] at hp
        simp [h kv.2] at hp
      simp [List.filter_cons, hp, dictGet, hk, ih]
    · simp [List.filter_cons, hp, ih]

theorem dictGet_exclAdminId (d : Doc) : dictGet (exclAdminId d) "admin_id" = none := by
  unfold exclAdminId dictRemove
  exact dictGet_filter_eq_none d _ _ (by intro v; simp)

theorem dictGet_projInclude_admin (keys : List String) (d : Doc)
    (h : keys.contains "admin_id" = false) :
    dictGet (projInclude keys d) "admin_id" = none := by
  unfold projInclude
  refine dictGet_filter_eq_none d _ _ ?_
  intro v
  simp_all

theorem mem_insertSorted (le : Doc → Doc → Bool) (a x : Doc) (l : List Doc) :
    x ∈ insertSorted le a l ↔ x = a ∨ x ∈ l := by
  induction l with
  | nil => simp [insertSorted]
  | cons b bs ih =>
    by_cases h : le a b
    · simp only [insertSorted, h, if_true, List.mem_cons]
    · simp only [insertSorted, h, Bool.false_eq_true, if_false, List.mem_cons, ih]
      tauto

theorem mem_sortBy (le : Doc → Doc → Bool) (x : Doc) (l : List Doc) :
    x ∈ sortBy le l ↔ x ∈ l := by
  induction l with
  | nil => simp [sortBy]
  | cons a as ih => simp [sortBy, mem_insertSorted, ih]

theorem pairwise_insertSorted (le : Doc → Doc → Bool)
    (htr : ∀ a b c, le a b = true → le b c = true → le a c = true)
    (hto : ∀ a b, le a b = true ∨ le b a = true) (a : Doc) (l : List Doc)
    (h : l.Pairwise (fun x y => le x y = true)) :
    (insertSorted le a l).Pairwise (fun x y => le x y = true) := by
  induction l with
  | nil => simp [insertSorted]
  | cons b bs ih =>
    rcases List.pairwise_cons.mp h with ⟨hb, hbs⟩
    by_cases hab : le a b
    · simp only [insertSorted, hab, if_true]
      refine List.pairwise_cons.mpr ⟨?_, h⟩
      intro x hx
      rcases List.mem_cons.mp hx with rfl | hx
      · exact hab
      · exact htr _ _ _ hab (hb x hx)
    · have hba : le b a = true := by
        rcases hto a b with hh | hh
        · exact absurd hh hab
        · exact hh
      simp only [insertSorted, hab, Bool.false_eq_true, if_false]
      refine List.pairwise_cons.mpr ⟨?_, ih hbs⟩
      intro x hx
      rcases (mem_insertSorted le a x bs).mp hx with rfl | hx
      · exact hba
      · exact hb x hx

theorem pairwise_sortBy (le : Doc → Doc → Bool)
    (htr : ∀ a b c, le a b = true → le b c = true → le a c = true)
    (hto : ∀ a b, le a b = true ∨ le b a = true) (l : List Doc) :
    (sortBy le l).Pairwise (fun x y => le x y = true) := by
  induction l with
  | nil => simp [sortBy]
  | cons a as ih => exact pairwise_insertSorted le htr hto a _ ih

/-! ## C5 — relative-time formatting -/

/-- C5: `time_ago` buckets an elapsed duration monotonically by the fixed
thresholds 60 s, 3600 s, 86400 s, 604800 s, 2592000 s, renders the
integer-truncated unit count with the correct singular/plural suffix, and
hits the boundary examples 59 s → "Just now", 60 s → "1 minute ago",
3599 s → "59 minutes ago", 3600 s → "1 hour ago", and so on. -/
theorem C5_time_ago_buckets (s t : Nat) (hst : s ≤ t) :
    (time_ago 59 = "Just now" ∧ time_ago 60 = "1 minute ago" ∧
     time_ago 3599 = "59 minutes ago" ∧ time_ago 3600 = "1 hour ago" ∧
     time_ago 86399 = "23 hours ago" ∧ time_ago 86400 = "1 day ago" ∧
     time_ago 604799 = "6 days ago" ∧ time_ago 604800 = "1 week ago" ∧
     time_ago 2591999 = "4 weeks ago" ∧ time_ago 2592000 = "1 month ago") ∧
    (time_ago s = if timeAgoBucket s = 0 then "Just now"
      else toString (timeAgoCount s) ++ (" " ++ bucketUnit (timeAgoBucket s)) ++
        plural (timeAgoCount s) ++ " ago") ∧
    (plural 1 = "" ∧ ∀ n, 2 ≤ n → plural n = "s") ∧
    (timeAgoBucket s < timeAgoBucket t ∨
      (timeAgoBucket s = timeAgoBucket t ∧ timeAgoCount s ≤ timeAgoCount t)) := by
  refine ⟨by decide, ?_, ⟨by decide, ?_⟩, ?_⟩
  · unfold time_ago timeAgoBucket timeAgoCount bucketUnit
    split_ifs <;> first | rfl | contradiction
  · intro n hn
    unfold plural
    rw [if_pos (by omega)]
  · unfold timeAgoBucket timeAgoCount
    split_ifs <;> omega

/-- Witness for C5 at the concrete pair (100 s, 7200 s). -/
theorem C5_time_ago_buckets_witness :
    time_ago 60 = "1 minute ago" ∧
    (timeAgoBucket 100 < timeAgoBucket 7200 ∨
      (timeAgoBucket 100 = timeAgoBucket 7200 ∧
        timeAgoCount 100 ≤ timeAgoCount 7200)) :=
  ⟨(C5_time_ago_buckets 100 7200 (by decide)).1.2.1,
   (C5_time_ago_buckets 100 7200 (by decide)).2.2.2⟩

/-! ## C4 — public listing and pagination metadata -/

/-- C4: for every valid public content type and page ≥ 1, the listing is at
most 30 items, sorted by posting time descending, taken with
skip = (page-1)*30 and limit 30 from the projected sorted collection, and
the pagination metadata satisfies: `total_pages` is the least number of
30-item pages covering the total count (i.e. ⌈total/30⌉), `has_prev` iff
page > 1, `has_next` iff page < total_pages, and the adjacent page numbers
are present exactly when they exist. -/
theorem C4_public_list_pagination (db : ContentDB) (ct : String) (page : Nat)
    (items : List Doc) (total : Nat)
    (hct : ct ∈ ["jobs", "workshops", "courses", "hackathons"])
    (hp : 1 ≤ page)
    (h : get_cached_content db ct page = (items, total)) :
    items.length ≤ 30 ∧
    items.Pairwise (fun a b => postKey b ≤ postKey a) ∧
    (∃ coll, publicCollOf db ct = some coll ∧ total = coll.length ∧
      items = ((sortBy byPostedDesc (coll.map exclAdminId)).drop
        ((page - 1) * 30)).take 30) ∧
    total ≤ 30 * (get_pagination_data page total).total_pages ∧
    (∀ m : Nat, total ≤ 30 * m → (get_pagination_data page total).total_pages ≤ m) ∧
    ((get_pagination_data page total).has_prev = true ↔ page > 1) ∧
    ((get_pagination_data page total).has_next = true ↔
      page < (get_pagination_data page total).total_pages) ∧
    (get_pagination_data page total).prev_page =
      (if page > 1 then some (page - 1) else none) ∧
    (get_pagination_data page total).next_page =
      (if page < (get_pagination_data page total).total_pages
        then some (page + 1) else none) := by
  have hcoll : ∃ coll, publicCollOf db ct = some coll := by
    simp only [List.mem_cons, List.not_mem_nil, or_false] at hct
    rcases hct with rfl | rfl | rfl | rfl <;> exact ⟨_, rfl⟩
  obtain ⟨coll, hc⟩ := hcoll
  simp only [get_cached_content, hc, ITEMS_PER_PAGE, Prod.mk.injEq] at h
  obtain ⟨hi, ht⟩ := h
  have hsorted0 : (sortBy byPostedDesc (coll.map exclAdminId)).Pairwise
      (fun x y => byPostedDesc x y = true) := by
    refine pairwise_sortBy _ ?_ ?_ _
    · intro a b c hab hbc
      simp only [byPostedDesc, decide_eq_true_eq] at *
      omega
    · intro a b
      simp only [byPostedDesc, decide_eq_true_eq]
      omega
  refine ⟨?_, ?_, ⟨coll, hc, ht.symm, hi.symm⟩, ?_, ?_, ?_, ?_, ?_, ?_⟩
  · rw [← hi]
    exact List.length_take_le _ _
  · rw [← hi]
    have hsub : List.Sublist (((sortBy byPostedDesc (coll.map exclAdminId)).drop
        ((page - 1) * 30)).take 30) (sortBy byPostedDesc (coll.map exclAdminId)) :=
      List.Sublist.trans (List.take_sublist _ _) (List.drop_sublist _ _)
    exact (List.Pairwise.sublist hsub hsorted0).imp
      (by intro a b hab; simpa [byPostedDesc] using hab)
  · simp only [get_pagination_data, ITEMS_PER_PAGE]
    omega
  · intro m hm
    simp only [get_pagination_data, ITEMS_PER_PAGE]
    omega
  · simp [get_pagination_data]
  · simp [get_pagination_data]
  · simp [get_pagination_data]
  · simp [get_pagination_data]

/-- A one-job database used by concrete witnesses. -/
def dbW : ContentDB :=
  { jobs := [[("_id", Val.oid "aaaaaaaaaaaaaaaaaaaaaaaa"),
              ("company_name", Val.s "Acme"),
              ("posted_at", Val.n 1000),
              ("admin_id", Val.s "admin")],
             [("_id", Val.oid "bbbbbbbbbbbbbbbbbbbbbbbb"),
              ("company_name", Val.s "Globex"),
              ("posted_at", Val.n 2000),
              ("admin_id", Val.s "admin")]]
    workshops := []
    courses := []
    hackathons := []
    roadmaps := [[("name", Val.s "DSA"), ("admin_id", Val.s "admin")]]
    websites := [[("name", Val.s "W1"), ("is_project", Val.b true),
                  ("admin_id", Val.s "admin")]]
    ads := [[("_id", Val.oid "cccccccccccccccccccccccc"),
             ("title", Val.s "Ad1"),
             ("content_reference", Val.oid "aaaaaaaaaaaaaaaaaaaaaaaa"),
             ("active", Val.b true),
             ("clicks", Val.n 5),
             ("impressions", Val.n 7),
             ("admin_id", Val.s "admin")]] }

/-- Witness for C4 on the concrete database `dbW`, page 1. -/
theorem C4_public_list_pagination_witness :
    (get_cached_content dbW "jobs" 1).1.length ≤ 30 ∧
    ((get_pagination_data 1 (get_cached_content dbW "jobs" 1).2).has_next = true ↔
      1 < (get_pagination_data 1 (get_cached_content dbW "jobs" 1).2).total_pages) :=
  ⟨(C4_public_list_pagination dbW "jobs" 1 _ _ (by decide) (by decide) rfl).1,
   (C4_public_list_pagination dbW "jobs" 1 _ _ (by decide) (by decide) rfl).2.2.2.2.2.2.1⟩

/-! ## C1 — ad click tracking -/

theorem incFirstClicks_eq_none (id : String) (ads : List Doc)
    (h : ∀ a ∈ ads, idMatches id a = false) :
    incFirstClicks id ads = none := by
  induction ads with
  | nil => rfl
  | cons a as ih =>
    have ha : idMatches id a = false := h a (List.mem_cons_self _ _)
    simp only [incFirstClicks, ha, Bool.false_eq_true, if_false]
    rw [ih (fun b hb => h b (List.mem_cons_of_mem _ hb))]
    rfl

theorem incFirstClicks_decomp (id : String) (pre : List Doc) (a : Doc)
    (post : List Doc) (ha : idMatches id a = true)
    (hpre : ∀ b ∈ pre, idMatches id b = false) :
    incFirstClicks id (pre ++ a :: post) =
      some (pre ++ dictSet a "clicks" (incVal (dictGet a "clicks")) :: post) := by
  induction pre with
  | nil => simp [incFirstClicks, ha]
  | cons b bs ih =>
    have hb : idMatches id b = false := hpre b (List.mem_cons_self _ _)
    simp only [List.cons_append, incFirstClicks, hb, Bool.false_eq_true, if_false,
      List.append_eq]
    rw [ih (fun c hc => hpre c (List.mem_cons_of_mem _ hc))]
    rfl

/-- C1: `ad_click` on a malformed id mutates neither the ads nor the click
log and signals InvalidId; on a well-formed id with no matching ad it
signals NotFound and changes nothing; on a well-formed id matching an ad
(first match, unique `_id`) it increments that ad's click counter by
exactly 1, leaves every other ad unchanged, and appends exactly one
click-event record carrying the ad id, the timestamp, the optional viewer
identity and the client address. -/
theorem C1_ad_click (st : AdsState) (ad_id : String) (now : Nat)
    (user : Option String) (ip : String) :
    (objectIdIsValid ad_id = false →
      ad_click st ad_id now user ip = (st, .invalidId)) ∧
    (objectIdIsValid ad_id = true →
      (∀ a ∈ st.ads, idMatches ad_id a = false) →
      ad_click st ad_id now user ip = (st, .notFound)) ∧
    (∀ pre a post, objectIdIsValid ad_id = true →
      st.ads = pre ++ a :: post →
      idMatches ad_id a = true →
      (∀ b ∈ pre, idMatches ad_id b = false) →
      ∀ k, dictGet a "clicks" = some (.n k) →
      ad_click st ad_id now user ip =
        ({ ads := pre ++ dictSet a "clicks" (.n (k + 1)) :: post,
           ad_clicks := st.ad_clicks ++
             [{ ad_id := strLower ad_id, clicked_at := now,
                user_id := user, ip_address := ip }] }, .ok)) := by
  refine ⟨?_, ?_, ?_⟩
  · intro hv
    simp [ad_click, hv]
  · intro hv hnone
    simp [ad_click, hv, incFirstClicks_eq_none ad_id st.ads hnone]
  · intro pre a post hv hdec ha hpre k hk
    have hinc := incFirstClicks_decomp ad_id pre a post ha hpre
    rw [hk] at hinc
    simp [ad_click, hv, hdec, hinc, incVal]

/-- Witness for C1: all three cases on a concrete one-ad state. -/
theorem C1_ad_click_witness :
    ad_click { ads := dbW.ads, ad_clicks := [] } "not-an-objectid!" 10 none "1.2.3.4" =
      ({ ads := dbW.ads, ad_clicks := [] }, .invalidId) ∧
    ad_click { ads := dbW.ads, ad_clicks := [] } "dddddddddddddddddddddddd" 10 none "1.2.3.4" =
      ({ ads := dbW.ads, ad_clicks := [] }, .notFound) ∧
    ad_click { ads := dbW.ads, ad_clicks := [] } "cccccccccccccccccccccccc" 10 (some "u1") "1.2.3.4" =
      ({ ads := [dictSet (dbW.ads.headD []) "clicks" (.n 6)],
         ad_clicks := [{ ad_id := "cccccccccccccccccccccccc", clicked_at := 10,
                         user_id := some "u1", ip_address := "1.2.3.4" }] }, .ok) := by
  refine ⟨?_, ?_, ?_⟩
  · exact (C1_ad_click _ _ 10 none "1.2.3.4").1 (by decide)
  · exact (C1_ad_click _ _ 10 none "1.2.3.4").2.1 (by decide) (by decide)
  · exact (C1_ad_click _ _ 10 (some "u1") "1.2.3.4").2.2 [] (dbW.ads.headD []) []
      (by decide) rfl (by decide) (by decide) 5 (by decide)

/-! ## C3 — ad creation on content create -/

/-- C3: creating a content item with the promote flag unset inserts no ad;
with the flag set it inserts exactly one ad whose `content_reference` is
the new content id, whose click and impression counters are 0, and whose
`active` flag is true. -/
theorem C3_create_promotes_ad (ct : String) (form : Doc)
    (upload : Option (Option String)) (now : Nat) (adminId newId : String)
    (out : CreateOutcome)
    (h : admin_add_content ct form upload now adminId newId = some out) :
    (getVal form "promote_as_ad" ≠ Val.s "on" → out.newAds = []) ∧
    (getVal form "promote_as_ad" = Val.s "on" →
      ∃ ad, out.newAds = [ad] ∧
        dictGet ad "content_reference" = some (mkOid newId) ∧
        dictGet ad "clicks" = some (.n 0) ∧
        dictGet ad "impressions" = some (.n 0) ∧
        dictGet ad "active" = some (.b true)) := by
  by_cases hct : validContentTypes.contains ct
  · simp only [admin_add_content, hct, if_true, Option.some.injEq] at h
    subst h
    constructor
    · intro hoff
      have hb : (getVal form "promote_as_ad" == Val.s "on") = false := by
        simp [hoff]
      simp [hb]
    · intro hon
      have hb : (getVal form "promote_as_ad" == Val.s "on") = true := by
        simp [hon]
      refine ⟨mkAdCreate (createData form upload now adminId) ct newId now adminId,
        ?_, ?_, ?_, ?_, ?_⟩ <;>
        simp [hb, mkAdCreate, dictGet]
  · rw [admin_add_content, if_neg hct] at h
    exact Option.noConfusion h

/-- Witness for C3: both branches on concrete forms. -/
theorem C3_create_promotes_ad_witness :
    (∃ out, admin_add_content "jobs" [("company_name", Val.s "Acme")] none 0 "admin"
        "eeeeeeeeeeeeeeeeeeeeeeee" = some out ∧ out.newAds = []) ∧
    (∃ out ad, admin_add_content "jobs"
        [("company_name", Val.s "Acme"), ("promote_as_ad", Val.s "on")] none 0
        "admin" "eeeeeeeeeeeeeeeeeeeeeeee" = some out ∧ out.newAds = [ad] ∧
      dictGet ad "content_reference" = some (mkOid "eeeeeeeeeeeeeeeeeeeeeeee") ∧
      dictGet ad "clicks" = some (.n 0)) := by
  constructor
  · exact ⟨_, rfl, (C3_create_promotes_ad "jobs" [("company_name", Val.s "Acme")]
      none 0 "admin" "eeeeeeeeeeeeeeeeeeeeeeee" _ rfl).1 (by decide)⟩
  · obtain ⟨ad, h1, h2, h3, h4, h5⟩ := (C3_create_promotes_ad "jobs"
      [("company_name", Val.s "Acme"), ("promote_as_ad", Val.s "on")] none 0
      "admin" "eeeeeeeeeeeeeeeeeeeeeeee" _ rfl).2 (by decide)
    exact ⟨_, ad, rfl, h1, h2, h3⟩

/-! ## C8 — delete cascades to ads -/

/-- C8: for every valid content type and content id, deleting the content
item also deletes every ad whose `content_reference` equals that id: after
the delete, zero ads referencing it remain. -/
theorem C8_delete_cascades (db : ContentDB) (ct id : String) (db2 : ContentDB)
    (hct : validContentTypes.contains ct = true)
    (hid : objectIdIsValid id = true)
    (h : admin_delete_content db ct id = some db2) :
    db2.ads.filter (refMatches id) = [] ∧
    (∀ a ∈ db2.ads, refMatches id a = false) := by
  have hcoll : ∃ coll, collOf db ct = some coll := by
    have hmem : ct ∈ validContentTypes := by simpa using hct
    simp only [validContentTypes, List.mem_cons, List.not_mem_nil, or_false] at hmem
    rcases hmem with rfl | rfl | rfl | rfl | rfl | rfl | rfl <;> exact ⟨_, rfl⟩
  obtain ⟨coll, hc⟩ := hcoll
  simp only [admin_delete_content, hc, Option.some.injEq] at h
  have hads : db2.ads = (setColl db ct (deleteFirstWhere (idMatches id) coll)).ads.filter
      (fun a => !refMatches id a) := by
    rw [← h]
  constructor
  · rw [hads, List.filter_filter]
    apply List.filter_eq_nil_iff.mpr
    intro a _
    simp
  · intro a ha
    rw [hads] at ha
    rcases List.mem_filter.mp ha with ⟨_, hfa⟩
    simpa using hfa

/-- Witness for C8 on the concrete database `dbW` (its single ad references
the deleted job). -/
theorem C8_delete_cascades_witness :
    ∃ db2, admin_delete_content dbW "jobs" "aaaaaaaaaaaaaaaaaaaaaaaa" = some db2 ∧
      db2.ads.filter (refMatches "aaaaaaaaaaaaaaaaaaaaaaaa") = [] := by
  refine ⟨_, rfl, ?_⟩
  exact (C8_delete_cascades dbW "jobs" "aaaaaaaaaaaaaaaaaaaaaaaa" _
    (by decide) (by decide) rfl).1

/-! ## C6 — boolean form fields on edit (code bug) -/

/-- C6 (code bug): the boolean-normalisation block of the edit route is
nested inside the per-key sanitisation loop, so it reruns on every string
field; after the first rerun it compares the already-converted boolean
against `'on'` and overwrites it with `False`.  Submitting the edit form
`certification=on, company_name=Acme` (in that order) therefore stores
`certification = False`, while the create path stores `True` for the very
same form. -/
theorem C6_edit_bool_normalisation_bug :
    dictGet (admin_edit_data
        [("certification", Val.s "on"), ("company_name", Val.s "Acme")] none 0)
      "certification" = some (Val.b false) ∧
    (admin_add_content "courses"
        [("certification", Val.s "on"), ("company_name", Val.s "Acme")] none 0
        "admin" "ffffffffffffffffffffffff").map
      (fun o => dictGet o.content "certification") = some (some (Val.b true)) := by
  decide

/-! ## C7 — failed image upload -/

theorem dictGet_dictRemove_ne (d : Doc) (kr k : String) (h : k ≠ kr) :
    dictGet (dictRemove d kr) k = dictGet d k := by
  induction d with
  | nil => rfl
  | cons kv rest ih =>
    by_cases hk : kv.1 = kr
    · have hne2 : ¬ kv.1 = k := by rw [hk]; exact fun hh => h hh.symm
      have e1 : dictRemove (kv :: rest) kr = dictRemove rest kr := by
        simp [dictRemove, List.filter_cons, hk]
      rw [e1, ih]
      show _ = if kv.1 = k then some kv.2 else dictGet rest k
      rw [if_neg hne2]
    · have e1 : dictRemove (kv :: rest) kr = kv :: dictRemove rest kr := by
        simp [dictRemove, List.filter_cons, hk]
      rw [e1]
      show (if kv.1 = k then some kv.2 else dictGet (dictRemove rest kr) k) = _
      rw [ih]
      rfl

theorem dictGet_normBoolKey_ne (d : Doc) (kb k : String) (h : k ≠ kb) :
    dictGet (normBoolKey d kb) k = dictGet d k := by
  unfold normBoolKey
  cases dictGet d kb with
  | none => exact dictGet_dictSet_ne _ _ _ _ h
  | some v => exact dictGet_dictSet_ne _ _ _ _ h

theorem dictGet_normBools_ne (d : Doc) (k : String)
    (h1 : k ≠ "certification") (h2 : k ≠ "active") (h3 : k ≠ "is_project") :
    dictGet (normBools d) k = dictGet d k := by
  unfold normBools
  rw [dictGet_normBoolKey_ne _ _ _ h3, dictGet_normBoolKey_ne _ _ _ h2,
    dictGet_normBoolKey_ne _ _ _ h1]

theorem editSanitizeLoop_get_none (ks : List String) (d : Doc) (k : String)
    (h0 : dictGet d k = none) (h1 : k ≠ "certification") (h2 : k ≠ "active")
    (h3 : k ≠ "is_project") :
    dictGet (editSanitizeLoop ks d) k = none := by
  induction ks generalizing d with
  | nil => simpa [editSanitizeLoop] using h0
  | cons k0 ks ih =>
    simp only [editSanitizeLoop]
    cases hk0 : dictGet d k0 with
    | none => exact ih d h0
    | some v =>
      cases v with
      | s w =>
        apply ih
        rw [dictGet_normBools_ne _ _ h1 h2 h3]
        have hkk0 : k ≠ k0 := by
          intro hh
          rw [← hh, h0] at hk0
          exact Option.noConfusion hk0
        rw [dictGet_dictSet_ne _ _ _ _ hkk0]
        exact h0
      | b v => exact ih d h0
      | n v => exact ih d h0
      | oid v => exact ih d h0
      | list vs => exact ih d h0
      | null => exact ih d h0

theorem dictGet_sanitizeStrings (d : Doc) (k : String) :
    dictGet (sanitizeStrings d) k = (dictGet d k).map
      (fun v => match v with | Val.s w => Val.s (sanitizeStr w) | v => v) := by
  induction d with
  | nil => rfl
  | cons kv rest ih =>
    obtain ⟨k0, v0⟩ := kv
    by_cases hk : k0 = k
    · cases v0 <;> simp [sanitizeStrings, dictGet, hk]
    · cases v0 <;> simpa [sanitizeStrings, dictGet, hk] using ih

theorem dictGet_splitRequirements_ne (d : Doc) (k : String)
    (h : k ≠ "requirements") :
    dictGet (splitRequirements d) k = dictGet d k := by
  unfold splitRequirements
  cases hreq : dictGet d "requirements" with
  | none => rfl
  | some v =>
    cases v with
    | s w =>
      by_cases hw : w = "N/A"
      · simp [hw]
      · simp [hw, dictGet_dictSet_ne _ _ _ _ h]
    | b v => rfl
    | n v => rfl
    | oid v => rfl
    | list vs => rfl
    | null => rfl

theorem dictGet_createNormBool_ne (d : Doc) (kb k : String) (h : k ≠ kb) :
    dictGet (createNormBool d kb) k = dictGet d k := by
  unfold createNormBool
  cases dictGet d kb with
  | none => rfl
  | some v => exact dictGet_dictSet_ne _ _ _ _ h

theorem createData_image_failed (form : Doc) (now : Nat) (adminId : String) :
    dictGet (createData form (some none) now adminId) "image" = some Val.null := by
  unfold createData
  rw [dictGet_splitRequirements_ne _ _ (by decide),
    dictGet_createNormBool_ne _ _ _ (by decide),
    dictGet_createNormBool_ne _ _ _ (by decide),
    dictGet_dictSet_ne _ _ _ _ (by decide),
    dictGet_dictSet_ne _ _ _ _ (by decide),
    dictGet_sanitizeStrings, dictGet_dictSet_self]
  rfl

/-- C7 (amended): when a file is supplied and the upload fails, no URL is
produced and the operation still succeeds, but the two paths differ: the
edit route leaves the image field unset (guarded assignment), while the
create route stores the field as a null value. -/
theorem C7_upload_failure (ct : String) (form : Doc) (now : Nat)
    (adminId newId : String)
    (hct : validContentTypes.contains ct = true)
    (himg : dictGet form "image" = none) :
    dictGet (admin_edit_data form (some none) now) "image" = none ∧
    ∃ out, admin_add_content ct form (some none) now adminId newId = some out ∧
      dictGet out.content "image" = some Val.null := by
  constructor
  · unfold admin_edit_data
    rw [dictGet_dictSet_ne _ _ _ _ (by decide),
      dictGet_splitRequirements_ne _ _ (by decide)]
    refine editSanitizeLoop_get_none _ _ _ ?_ (by decide) (by decide) (by decide)
    rw [dictGet_dictRemove_ne _ _ _ (by decide)]
    exact himg
  · refine ⟨CreateOutcome.mk (createData form (some none) now adminId)
        (if getVal form "promote_as_ad" == Val.s "on" then
          [mkAdCreate (createData form (some none) now adminId) ct newId now adminId]
        else []), ?_, ?_⟩
    · rw [admin_add_content, if_pos hct]
    · exact createData_image_failed form now adminId

/-- C7 counterexample to the claim as stated: on *create*, a failed upload
does not leave the image field unset — the stored document carries an
explicit null. -/
theorem C7_create_stores_null :
    (admin_add_content "jobs" [("company_name", Val.s "Acme")] (some none) 0
        "admin" "aaaaaaaaaaaaaaaaaaaaaaaa").map
      (fun o => dictGet o.content "image") = some (some Val.null) := by
  decide

/-- Witness for C7 (amended) at a concrete form. -/
theorem C7_upload_failure_witness :
    dictGet (admin_edit_data [("company_name", Val.s "Acme")] (some none) 5)
      "image" = none ∧
    ∃ out, admin_add_content "jobs" [("company_name", Val.s "Acme")] (some none)
        5 "admin" "aaaaaaaaaaaaaaaaaaaaaaaa" = some out ∧
      dictGet out.content "image" = some Val.null :=
  C7_upload_failure "jobs" [("company_name", Val.s "Acme")] 5 "admin"
    "aaaaaaaaaaaaaaaaaaaaaaaa" (by decide) (by decide)

/-! ## C2 — ad maintenance on content edit -/

theorem updateFirstWhere_decomp (p : Doc → Bool) (f : Doc → Doc)
    (pre : List Doc) (a : Doc) (post : List Doc) (ha : p a = true)
    (hpre : ∀ b ∈ pre, p b = false) :
    updateFirstWhere p f (pre ++ a :: post) = pre ++ f a :: post := by
  induction pre with
  | nil => simp [updateFirstWhere, ha]
  | cons b bs ih =>
    have hb := hpre b (List.mem_cons_self _ _)
    simp only [List.cons_append, updateFirstWhere, hb, Bool.false_eq_true, if_false,
      List.append_eq]
    rw [ih (fun c hc => hpre c (List.mem_cons_of_mem _ hc))]

theorem mkAdEdit_keys_ne (data : Doc) (ct id : String) (now : Nat)
    (adminId : String) (k : String)
    (hk : k ∉ ["title", "description", "image", "link", "content_type",
      "content_reference", "active", "updated_at", "admin_id"]) :
    ∀ kv ∈ mkAdEdit data ct id now adminId, kv.1 ≠ k := by
  intro kv hkv
  simp only [mkAdEdit, List.mem_cons, List.not_mem_nil, or_false] at hkv
  simp only [List.mem_cons, List.not_mem_nil, or_false, not_or] at hk
  obtain ⟨n1, n2, n3, n4, n5, n6, n7, n8, n9⟩ := hk
  rcases hkv with rfl | rfl | rfl | rfl | rfl | rfl | rfl | rfl | rfl <;>
    simp_all [eq_comm]

/-- C2 counterexample to the claim as stated: the edit route maintains the
linked ad only for jobs/workshops/courses/hackathons; editing a *websites*
item with the promote flag set and no existing ad inserts nothing (the
claim requires exactly one new ad). -/
theorem C2_websites_edit_inserts_no_ad :
    (admin_edit_ads [] "websites" "aaaaaaaaaaaaaaaaaaaaaaaa"
      [("name", Val.s "W")] true 0 "admin").length ≠ 1 := by
  decide

/-- C2 (amended): for edits of content whose type is one of
jobs/workshops/courses/hackathons — the types for which the edit route
maintains the linked ad — with the promote flag set and an existing ad
referencing the content id, that first matching ad is updated in place with
its click and impression counters unchanged; with the flag set and no
referencing ad, exactly one new ad with zero counters is appended; with the
flag cleared, every ad referencing the content id is deleted. -/
theorem C2_edit_ad_upsert (ads : List Doc) (ct id : String) (data : Doc)
    (promote : Bool) (now : Nat) (adminId : String)
    (hct : ct ∈ promotableTypes) :
    (promote = true → ∀ pre a post, ads = pre ++ a :: post →
      refMatches id a = true → (∀ b ∈ pre, refMatches id b = false) →
      admin_edit_ads ads ct id data promote now adminId =
        pre ++ dictSetAll a (mkAdEdit data ct id now adminId) :: post ∧
      dictGet (dictSetAll a (mkAdEdit data ct id now adminId)) "clicks" =
        dictGet a "clicks" ∧
      dictGet (dictSetAll a (mkAdEdit data ct id now adminId)) "impressions" =
        dictGet a "impressions") ∧
    (promote = true → (∀ a ∈ ads, refMatches id a = false) →
      ∃ ad, admin_edit_ads ads ct id data promote now adminId = ads ++ [ad] ∧
        dictGet ad "clicks" = some (.n 0) ∧
        dictGet ad "impressions" = some (.n 0) ∧
        dictGet ad "content_reference" = some (mkOid id)) ∧
    (promote = false →
      admin_edit_ads ads ct id data promote now adminId =
        ads.filter (fun a => !refMatches id a) ∧
      ∀ a ∈ admin_edit_ads ads ct id data promote now adminId,
        refMatches id a = false) := by
  have hctb : promotableTypes.contains ct = true := by simpa using hct
  refine ⟨?_, ?_, ?_⟩
  · intro hp pre a post hdec ha hpre
    subst hp hdec
    have hany : (pre ++ a :: post).any (refMatches id) = true :=
      List.any_eq_true.mpr ⟨a, by simp, ha⟩
    refine ⟨?_, ?_, ?_⟩
    · simp only [admin_edit_ads, hctb, if_true, hany]
      exact updateFirstWhere_decomp _ _ pre a post ha hpre
    · exact dictGet_dictSetAll_notMem _ _ _
        (mkAdEdit_keys_ne data ct id now adminId "clicks" (by decide))
    · exact dictGet_dictSetAll_notMem _ _ _
        (mkAdEdit_keys_ne data ct id now adminId "impressions" (by decide))
  · intro hp hnone
    subst hp
    have hany : ads.any (refMatches id) = false := by
      rw [List.any_eq_false]
      intro a ha
      simp [hnone a ha]
    refine ⟨dictSet (dictSet (dictSet (mkAdEdit data ct id now adminId)
        "clicks" (.n 0)) "impressions" (.n 0)) "posted_at" (.n now), ?_, ?_, ?_, ?_⟩
    · simp only [admin_edit_ads, hctb, if_true, hany, Bool.false_eq_true, if_false]
    · rw [dictGet_dictSet_ne _ _ _ _ (by decide),
        dictGet_dictSet_ne _ _ _ _ (by decide), dictGet_dictSet_self]
    · rw [dictGet_dictSet_ne _ _ _ _ (by decide), dictGet_dictSet_self]
    · rw [dictGet_dictSet_ne _ _ _ _ (by decide),
        dictGet_dictSet_ne _ _ _ _ (by decide),
        dictGet_dictSet_ne _ _ _ _ (by decide)]
      simp [mkAdEdit, dictGet]
  · intro hp
    subst hp
    constructor
    · simp only [admin_edit_ads, hctb, if_true, Bool.false_eq_true, if_false]
    · intro a ha
      simp only [admin_edit_ads, hctb, if_true, Bool.false_eq_true, if_false] at ha
      rcases List.mem_filter.mp ha with ⟨_, hfa⟩
      simpa using hfa

/-- Witness for C2 (amended): on→on on the concrete ad of `dbW`
(clicks = 5 before and after), plus the flag-cleared case. -/
theorem C2_edit_ad_upsert_witness :
    (admin_edit_ads dbW.ads "jobs" "aaaaaaaaaaaaaaaaaaaaaaaa"
        [("company_name", Val.s "Acme")] true 99 "admin" =
      [dictSetAll (dbW.ads.headD [])
        (mkAdEdit [("company_name", Val.s "Acme")] "jobs"
          "aaaaaaaaaaaaaaaaaaaaaaaa" 99 "admin")] ∧
     dictGet (dictSetAll (dbW.ads.headD [])
        (mkAdEdit [("company_name", Val.s "Acme")] "jobs"
          "aaaaaaaaaaaaaaaaaaaaaaaa" 99 "admin")) "clicks" = some (Val.n 5)) ∧
    admin_edit_ads dbW.ads "jobs" "aaaaaaaaaaaaaaaaaaaaaaaa"
        [("company_name", Val.s "Acme")] false 99 "admin" = [] := by
  constructor
  · have h := (C2_edit_ad_upsert dbW.ads "jobs" "aaaaaaaaaaaaaaaaaaaaaaaa"
      [("company_name", Val.s "Acme")] true 99 "admin" (by decide)).1 rfl
      [] (dbW.ads.headD []) [] rfl (by decide) (by decide)
    exact ⟨h.1, h.2.1.trans (by decide)⟩
  · have h := (C2_edit_ad_upsert dbW.ads "jobs" "aaaaaaaaaaaaaaaaaaaaaaaa"
      [("company_name", Val.s "Acme")] false 99 "admin" (by decide)).2.2 rfl
    exact h.1.trans (by decide)

/-! ## C9 — fields of the ad derived on create -/

theorem sanitizeStr_ne_empty (s : String) : sanitizeStr s ≠ "" := by
  unfold sanitizeStr set_default_value
  by_cases h : (sanitize_input s).toList.all Char.isWhitespace
  · rw [if_pos h]; decide
  · rw [if_neg h]
    intro hc
    rw [hc] at h
    exact h (by decide)

/-- Every field of the create-path data document other than the six keys the
pipeline itself writes is the sanitised form field. -/
theorem createData_get_other (form : Doc) (upload : Option (Option String))
    (now : Nat) (adminId : String) (k : String)
    (h1 : k ≠ "image") (h2 : k ≠ "posted_at") (h3 : k ≠ "admin_id")
    (h4 : k ≠ "certification") (h5 : k ≠ "active") (h6 : k ≠ "requirements") :
    dictGet (createData form upload now adminId) k =
      (dictGet form k).map (fun v => match v with
        | Val.s w => Val.s (sanitizeStr w) | v => v) := by
  unfold createData
  rw [dictGet_splitRequirements_ne _ _ h6,
    dictGet_createNormBool_ne _ _ _ h5,
    dictGet_createNormBool_ne _ _ _ h4,
    dictGet_dictSet_ne _ _ _ _ h3,
    dictGet_dictSet_ne _ _ _ _ h2]
  cases upload with
  | none => exact dictGet_sanitizeStrings _ _
  | some u =>
    cases u with
    | none => rw [dictGet_sanitizeStrings, dictGet_dictSet_ne _ _ _ _ h1]
    | some url => rw [dictGet_sanitizeStrings, dictGet_dictSet_ne _ _ _ _ h1]

/-- Shorthand for the sanitised lookup of a string form field inside
`createData` (phrased through `getVal`, i.e. Python `data.get(k)`). -/
theorem createData_getVal_str (form : Doc) (upload : Option (Option String))
    (now : Nat) (adminId : String) (k : String) (s : String)
    (h1 : k ≠ "image") (h2 : k ≠ "posted_at") (h3 : k ≠ "admin_id")
    (h4 : k ≠ "certification") (h5 : k ≠ "active") (h6 : k ≠ "requirements")
    (hs : dictGet form k = some (Val.s s)) :
    getVal (createData form upload now adminId) k = Val.s (sanitizeStr s) := by
  unfold getVal getValD
  rw [createData_get_other form upload now adminId k h1 h2 h3 h4 h5 h6, hs]
  rfl

/-- Shorthand for an absent form field inside `createData`. -/
theorem createData_getVal_none (form : Doc) (upload : Option (Option String))
    (now : Nat) (adminId : String) (k : String)
    (h1 : k ≠ "image") (h2 : k ≠ "posted_at") (h3 : k ≠ "admin_id")
    (h4 : k ≠ "certification") (h5 : k ≠ "active") (h6 : k ≠ "requirements")
    (hs : dictGet form k = none) :
    dictGet (createData form upload now adminId) k = none := by
  rw [createData_get_other form upload now adminId k h1 h2 h3 h4 h5 h6, hs]
  rfl

/-- The 200-character role used by the C9 counterexample. -/
def longRole : String := String.mk (List.replicate 200 'x')

set_option maxRecDepth 100000 in
/-- C9 counterexample to the claim as stated: when the content has a `role`
field, the derived ad's description is the role *untruncated* — the `[:100]`
slice binds only to the `description` fallback branch of the Python `or`.
A 200-character role yields a 200-character ad description. -/
theorem C9_long_role_not_truncated :
    (admin_add_content "jobs"
        [("role", Val.s longRole), ("promote_as_ad", Val.s "on")] none 0
        "admin" "aaaaaaaaaaaaaaaaaaaaaaaa").map
      (fun o => o.newAds.map (fun ad => dictGet ad "description")) =
      some [some (Val.s longRole)] ∧
    longRole.length = 200 ∧ ¬ (longRole.length ≤ 100) := by
  refine ⟨by decide, by decide, by decide⟩

/-- C9 (amended): for every create with the promote flag set, the derived
ad's title follows the company_name → name → title → "N/A" fallback chain
over the sanitised form fields; its description is the sanitised `role`
field *untruncated* when present, otherwise the sanitised `description`
field truncated to 100 characters (or "N/A" when absent); and its link is
the sanitised `official_link` field, defaulting to "#". -/
theorem C9_ad_derivation (ct : String) (form : Doc)
    (upload : Option (Option String)) (now : Nat) (adminId newId : String)
    (out : CreateOutcome)
    (hct : validContentTypes.contains ct = true)
    (hon : getVal form "promote_as_ad" = Val.s "on")
    (h : admin_add_content ct form upload now adminId newId = some out) :
    ∃ ad, out.newAds = [ad] ∧
      ((∀ s, dictGet form "company_name" = some (Val.s s) →
          dictGet ad "title" = some (Val.s (sanitizeStr s))) ∧
       (dictGet form "company_name" = none →
        ∀ s, dictGet form "name" = some (Val.s s) →
          dictGet ad "title" = some (Val.s (sanitizeStr s))) ∧
       (dictGet form "company_name" = none → dictGet form "name" = none →
        ∀ s, dictGet form "title" = some (Val.s s) →
          dictGet ad "title" = some (Val.s (sanitizeStr s))) ∧
       (dictGet form "company_name" = none → dictGet form "name" = none →
        dictGet form "title" = none →
          dictGet ad "title" = some (Val.s "N/A"))) ∧
      ((∀ s, dictGet form "role" = some (Val.s s) →
          dictGet ad "description" = some (Val.s (sanitizeStr s))) ∧
       (dictGet form "role" = none →
        ∀ s, dictGet form "description" = some (Val.s s) →
          dictGet ad "description" =
            some (Val.s (String.mk ((sanitizeStr s).toList.take 100)))) ∧
       (dictGet form "role" = none → dictGet form "description" = none →
          dictGet ad "description" = some (Val.s "N/A"))) ∧
      ((∀ s, dictGet form "official_link" = some (Val.s s) →
          dictGet ad "link" = some (Val.s (sanitizeStr s))) ∧
       (dictGet form "official_link" = none →
          dictGet ad "link" = some (Val.s "#"))) := by
  rw [admin_add_content, if_pos hct] at h
  have hb : (getVal form "promote_as_ad" == Val.s "on") = true := by simp [hon]
  rw [Option.some.injEq] at h
  subst h
  refine ⟨mkAdCreate (createData form upload now adminId) ct newId now adminId,
    by simp [hb], ⟨?_, ?_, ?_, ?_⟩, ⟨?_, ?_, ?_⟩, ⟨?_, ?_⟩⟩
  · intro s hs
    have e1 := createData_getVal_str form upload now adminId "company_name" s
      (by decide) (by decide) (by decide) (by decide) (by decide) (by decide) hs
    show some (valOr (getVal (createData form upload now adminId) "company_name") _) = _
    rw [e1]
    simp [valOr, pyTruthy, sanitizeStr_ne_empty s]
  · intro hc s hs
    have e1 := createData_getVal_none form upload now adminId "company_name"
      (by decide) (by decide) (by decide) (by decide) (by decide) (by decide) hc
    have e2 := createData_getVal_str form upload now adminId "name" s
      (by decide) (by decide) (by decide) (by decide) (by decide) (by decide) hs
    show some (valOr (getVal (createData form upload now adminId) "company_name")
      (valOr (getVal (createData form upload now adminId) "name") _)) = _
    rw [e2]
    unfold getVal getValD
    rw [e1]
    simp [valOr, pyTruthy, sanitizeStr_ne_empty s]
  · intro hc hn s hs
    have e1 := createData_getVal_none form upload now adminId "company_name"
      (by decide) (by decide) (by decide) (by decide) (by decide) (by decide) hc
    have e2 := createData_getVal_none form upload now adminId "name"
      (by decide) (by decide) (by decide) (by decide) (by decide) (by decide) hn
    have e3 := createData_get_other form upload now adminId "title"
      (by decide) (by decide) (by decide) (by decide) (by decide) (by decide)
    rw [hs] at e3
    show some (valOr (getVal (createData form upload now adminId) "company_name")
      (valOr (getVal (createData form upload now adminId) "name")
        (getValD (createData form upload now adminId) "title" (.s "N/A")))) = _
    unfold getVal getValD
    rw [e1, e2, e3]
    simp [valOr, pyTruthy, sanitizeStr_ne_empty s]
  · intro hc hn ht
    have e1 := createData_getVal_none form upload now adminId "company_name"
      (by decide) (by decide) (by decide) (by decide) (by decide) (by decide) hc
    have e2 := createData_getVal_none form upload now adminId "name"
      (by decide) (by decide) (by decide) (by decide) (by decide) (by decide) hn
    have e3 := createData_getVal_none form upload now adminId "title"
      (by decide) (by decide) (by decide) (by decide) (by decide) (by decide) ht
    show some (valOr (getVal (createData form upload now adminId) "company_name")
      (valOr (getVal (createData form upload now adminId) "name")
        (getValD (createData form upload now adminId) "title" (.s "N/A")))) = _
    unfold getVal getValD
    rw [e1, e2, e3]
    simp [valOr, pyTruthy]
  · intro s hs
    have e1 := createData_getVal_str form upload now adminId "role" s
      (by decide) (by decide) (by decide) (by decide) (by decide) (by decide) hs
    show some (valOr (getVal (createData form upload now adminId) "role") _) = _
    rw [e1]
    simp [valOr, pyTruthy, sanitizeStr_ne_empty s]
  · intro hr s hs
    have e1 := createData_getVal_none form upload now adminId "role"
      (by decide) (by decide) (by decide) (by decide) (by decide) (by decide) hr
    have e2 := createData_get_other form upload now adminId "description"
      (by decide) (by decide) (by decide) (by decide) (by decide) (by decide)
    rw [hs] at e2
    show some (valOr (getVal (createData form upload now adminId) "role")
      (valTake (getValD (createData form upload now adminId) "description"
        (.s "N/A")) 100)) = _
    unfold getVal getValD
    rw [e1, e2]
    simp [valOr, pyTruthy, valTake]
  · intro hr hd
    have e1 := createData_getVal_none form upload now adminId "role"
      (by decide) (by decide) (by decide) (by decide) (by decide) (by decide) hr
    have e2 := createData_getVal_none form upload now adminId "description"
      (by decide) (by decide) (by decide) (by decide) (by decide) (by decide) hd
    show some (valOr (getVal (createData form upload now adminId) "role")
      (valTake (getValD (createData form upload now adminId) "description"
        (.s "N/A")) 100)) = _
    unfold getVal getValD
    rw [e1, e2]
    simp [valOr, pyTruthy, valTake]
  · intro s hs
    have e1 := createData_get_other form upload now adminId "official_link"
      (by decide) (by decide) (by decide) (by decide) (by decide) (by decide)
    rw [hs] at e1
    show some (getValD (createData form upload now adminId) "official_link"
      (.s "#")) = _
    unfold getValD
    rw [e1]
    rfl
  · intro hol
    have e1 := createData_getVal_none form upload now adminId "official_link"
      (by decide) (by decide) (by decide) (by decide) (by decide) (by decide) hol
    show some (getValD (createData form upload now adminId) "official_link"
      (.s "#")) = _
    unfold getValD
    rw [e1]
    rfl

/-- Witness for C9 (amended): name-fallback title and default link on a
concrete form. -/
theorem C9_ad_derivation_witness :
    ∃ out ad, admin_add_content "jobs"
        [("name", Val.s "Acme"), ("promote_as_ad", Val.s "on")] none 0 "admin"
        "aaaaaaaaaaaaaaaaaaaaaaaa" = some out ∧ out.newAds = [ad] ∧
      dictGet ad "title" = some (Val.s (sanitizeStr "Acme")) ∧
      dictGet ad "link" = some (Val.s "#") := by
  obtain ⟨ad, h1, ⟨t1, t2, t3, t4⟩, hdesc, ⟨l1, l2⟩⟩ :=
    C9_ad_derivation "jobs" [("name", Val.s "Acme"), ("promote_as_ad", Val.s "on")]
      none 0 "admin" "aaaaaaaaaaaaaaaaaaaaaaaa" _ (by decide) (by decide) rfl
  exact ⟨_, ad, rfl, h1, t2 (by decide) "Acme" (by decide), l2 (by decide)⟩

/-! ## C10 — `admin_id` is never exposed by public reads -/

theorem noAdmin_of_mem_map_excl (l : List Doc) (d : Doc)
    (h : d ∈ l.map exclAdminId) : dictGet d "admin_id" = none := by
  rcases List.mem_map.mp h with ⟨d0, _, rfl⟩
  exact dictGet_exclAdminId d0

theorem noAdmin_dictSet (d : Doc) (k : String) (v : Val) (hk : "admin_id" ≠ k)
    (h : dictGet d "admin_id" = none) :
    dictGet (dictSet d k v) "admin_id" = none := by
  rw [dictGet_dictSet_ne _ _ _ _ hk]
  exact h

theorem noAdmin_get_cached (db : ContentDB) (ct : String) (page : Nat) :
    ∀ d ∈ (get_cached_content db ct page).1, dictGet d "admin_id" = none := by
  intro d hd
  unfold get_cached_content at hd
  cases hc : publicCollOf db ct with
  | none => rw [hc] at hd; simp at hd
  | some coll =>
    rw [hc] at hd
    simp only at hd
    have h1 : d ∈ sortBy byPostedDesc (coll.map exclAdminId) :=
      (List.drop_sublist _ _).subset ((List.take_sublist _ _).subset hd)
    exact noAdmin_of_mem_map_excl _ _ ((mem_sortBy _ _ _).mp h1)

theorem noAdmin_searchColl (o : SearchOracle) (coll : List Doc) (q : String)
    (fs : List String) (t : String) :
    ∀ d ∈ searchColl o coll q fs t, dictGet d "admin_id" = none := by
  intro d hd
  unfold searchColl at hd
  rcases List.mem_map.mp hd with ⟨d1, hd1, rfl⟩
  refine noAdmin_dictSet _ _ _ (by decide) (noAdmin_dictSet _ _ _ (by decide) ?_)
  by_cases ho : o.textOk
  · rw [if_pos ho] at hd1
    have h2 := (mem_sortBy _ _ _).mp ((List.take_sublist _ _).subset hd1)
    rcases List.mem_map.mp h2 with ⟨d0, _, rfl⟩
    exact noAdmin_dictSet _ _ _ (by decide) (dictGet_exclAdminId d0)
  · rw [if_neg ho] at hd1
    exact noAdmin_of_mem_map_excl _ _ ((List.take_sublist _ _).subset hd1)

/-- C10: every document returned by a public-facing read — the public
paginated listings, the roadmaps / websites / our-projects pages, the
detail page (item and related items), the filter API, the search API, and
the get-ads API — omits the `admin_id` field, whatever the database
contents, query, oracle behaviour, or random ad sample. -/
theorem C10_no_admin_id_public (db : ContentDB) (ct ct2 ctf id q : String)
    (page pagef now : Nat) (p : FilterParams) (oJ oW oC oH : SearchOracle)
    (sample : List Doc → List Doc) :
    (∀ d ∈ (get_cached_content db ct page).1, dictGet d "admin_id" = none) ∧
    (∀ d ∈ roadmaps_page db, dictGet d "admin_id" = none) ∧
    (∀ d ∈ websites_page db, dictGet d "admin_id" = none) ∧
    (∀ d ∈ our_projects_page db, dictGet d "admin_id" = none) ∧
    (∀ item related, detail_page db ct2 id now = some (item, related) →
      dictGet item "admin_id" = none ∧
      ∀ d ∈ related, dictGet d "admin_id" = none) ∧
    (∀ res, filter_content db ctf p pagef now = some res →
      ∀ d ∈ res, dictGet d "admin_id" = none) ∧
    (∀ d ∈ search db q oJ oW oC oH, dictGet d "admin_id" = none) ∧
    (∀ d ∈ get_ads db sample, dictGet d "admin_id" = none) := by
  refine ⟨noAdmin_get_cached db ct page, ?_, ?_, ?_, ?_, ?_, ?_, ?_⟩
  · exact fun d hd => noAdmin_of_mem_map_excl _ _ hd
  · exact fun d hd => noAdmin_of_mem_map_excl _ _ hd
  · exact fun d hd => noAdmin_of_mem_map_excl _ _ hd
  · intro item related hdet
    cases hc : detailCollOf db ct2 with
    | none =>
      simp only [detail_page, hc] at hdet
      exact Option.noConfusion hdet
    | some coll =>
      simp only [detail_page, hc] at hdet
      cases hf : (coll.map exclAdminId).find? (idMatches id) with
      | none =>
        simp only [hf] at hdet
        exact Option.noConfusion hdet
      | some item0 =>
        simp only [hf, Option.some.injEq, Prod.mk.injEq] at hdet
        obtain ⟨hitem, hrel⟩ := hdet
        have hmem0 : item0 ∈ coll.map exclAdminId := List.mem_of_find?_eq_some hf
        have h0 : dictGet item0 "admin_id" = none := noAdmin_of_mem_map_excl _ _ hmem0
        constructor
        · rw [← hitem]
          exact noAdmin_dictSet _ _ _ (by decide) h0
        · intro d hd
          rw [← hrel] at hd
          by_cases hjob : ct2 = "job"
          · rw [if_pos hjob] at hd
            have h2 := (List.take_sublist _ _).subset hd
            rcases List.mem_map.mp h2 with ⟨d0, _, rfl⟩
            exact dictGet_projInclude_admin _ _ (by decide)
          · rw [if_neg hjob] at hd
            have h2 := (List.take_sublist _ _).subset hd
            rcases List.mem_map.mp h2 with ⟨d0, _, rfl⟩
            exact dictGet_projInclude_admin _ _ (by decide)
  · intro res hres d hd
    unfold filter_content at hres
    cases hc : publicCollOf db ctf with
    | none => rw [hc] at hres; exact Option.noConfusion hres
    | some coll =>
      rw [hc] at hres
      simp only [Option.some.injEq] at hres
      rw [← hres] at hd
      rcases List.mem_map.mp hd with ⟨d1, hd1, rfl⟩
      refine noAdmin_dictSet _ _ _ (by decide) (noAdmin_dictSet _ _ _ (by decide) ?_)
      have h1 : d1 ∈ sortBy byPostedDesc ((coll.filter
          (matchesFilterQuery now p)).map exclAdminId) :=
        (List.drop_sublist _ _).subset ((List.take_sublist _ _).subset hd1)
      exact noAdmin_of_mem_map_excl _ _ ((mem_sortBy _ _ _).mp h1)
  · intro d hd
    unfold search at hd
    by_cases hq : pyStrip q = ""
    · rw [if_pos hq] at hd
      simp at hd
    · rw [if_neg hq] at hd
      rcases List.mem_append.mp hd with hd | hd4
      · rcases List.mem_append.mp hd with hd | hd3
        · rcases List.mem_append.mp hd with hd1 | hd2
          · exact noAdmin_searchColl _ _ _ _ _ d hd1
          · exact noAdmin_searchColl _ _ _ _ _ d hd2
        · exact noAdmin_searchColl _ _ _ _ _ d hd3
      · exact noAdmin_searchColl _ _ _ _ _ d hd4
  · intro d hd
    unfold get_ads at hd
    rcases List.mem_map.mp hd with ⟨a0, _, rfl⟩
    simp only []
    refine noAdmin_dictSet _ _ _ (by decide) (noAdmin_dictSet _ _ _ (by decide)
      (noAdmin_dictSet _ _ _ (by decide) (noAdmin_dictSet _ _ _ (by decide) ?_)))
    have hproj : dictGet (projInclude ["title", "description", "image", "link",
        "clicks"] a0) "admin_id" = none := dictGet_projInclude_admin _ _ (by decide)
    by_cases hcr : (dictGet (dictSet (projInclude ["title", "description",
        "image", "link", "clicks"] a0) "_id" (idToStr (dictGet (projInclude
        ["title", "description", "image", "link", "clicks"] a0) "_id")))
        "content_reference").isSome
    · rw [if_pos hcr]
      exact noAdmin_dictSet _ _ _ (by decide)
        (noAdmin_dictSet _ _ _ (by decide) hproj)
    · rw [if_neg hcr]
      exact noAdmin_dictSet _ _ _ (by decide) hproj

/-- A fixed search oracle for the C10 witness (text index unavailable, so
the regex fallback runs). -/
def oracleW : SearchOracle :=
  { textOk := false, textMatch := fun _ => true, score := fun _ => 0 }

/-- Witness for C10: a concrete listing entry and a concrete search result
on `dbW`. -/
theorem C10_no_admin_id_public_witness :
    dictGet (exclAdminId (dbW.roadmaps.headD [])) "admin_id" = none ∧
    dictGet (dictSet (dictSet (exclAdminId (dbW.jobs.headD []))
      "_id" (Val.s "aaaaaaaaaaaaaaaaaaaaaaaa")) "type" (Val.s "job"))
      "admin_id" = none := by
  constructor
  · exact (C10_no_admin_id_public dbW "jobs" "job" "jobs" "x" "acme" 1 1 0
      ⟨none, none, none, none, none⟩ oracleW oracleW oracleW oracleW
      (fun l => l)).2.1 _ (by decide)
  · exact (C10_no_admin_id_public dbW "jobs" "job" "jobs" "x" "acme" 1 1 0
      ⟨none, none, none, none, none⟩ oracleW oracleW oracleW oracleW
      (fun l => l)).2.2.2.2.2.2.1 _ (by decide)
